import Mathlib

/-!
Verification of the laconia Kafka-protocol agent (crate laconia-agent)
against its natural-language specification.

The definitions below are a shallow embedding of the Rust source:

* buffers (`bytes::BytesMut`) become `List UInt8`, consumed from the front;
* every fallible decoder returns `DRes α`: either `ok value rest`, an
  `io::Error` (`err e rest`, carrying the buffer state at the error point,
  since the Rust buffer is mutated in place), or a Rust panic
  (`panicked msg`), which `bytes::Buf::get_u8` / `split_to` and the
  `panic!` / `todo!` macros can raise;
* unsigned varints follow the `integer_encoding` crate: at most 5 bytes
  for `u32`, accumulated little-endian in 7-bit groups, truncated to
  `u32`; EOF mid-varint is an `UnexpectedEof` error;
* `i16` / `i32` / `u32` values are modelled as `Int` / `Nat` with explicit
  two complement conversion and `% 2 ^ w` where the source casts.
-/

/-- A byte buffer, the model of `bytes::BytesMut`, read from the front. -/
abbrev Buf := List UInt8

/-- The bytes of a Rust `String` (always valid UTF-8 in Rust). -/
abbrev Str := List UInt8

/-- Error kinds a decoder can return, from `std::io::Error` as used in the
source (`ErrorKind::InvalidData` with a message, `UnexpectedEof` from the
varint reader, `io::Error::other` from the registry). -/
inductive DErr where
  | invalidData : String → DErr
  | eof : DErr
  | other : String → DErr
deriving DecidableEq, Repr

/-- Result of running a decoder on a buffer: success with the remaining
buffer, an `io::Error` with the buffer state at the point of failure, or a
Rust panic. -/
inductive DRes (α : Type) where
  | ok : α → Buf → DRes α
  | err : DErr → Buf → DRes α
  | panicked : String → DRes α
deriving DecidableEq, Repr

/-- Big-endian two-byte two-complement read, the model of `get_i16`. -/
def toI16 (hi lo : UInt8) : Int :=
  let n : Nat := hi.toNat * 256 + lo.toNat
  if n < 32768 then (n : Int) else (n : Int) - 65536

/-- Big-endian four-byte two-complement read, the model of `get_i32`. -/
def toI32 (a b c d : UInt8) : Int :=
  let n : Nat := a.toNat * 2 ^ 24 + b.toNat * 2 ^ 16 + c.toNat * 2 ^ 8 + d.toNat
  if n < 2 ^ 31 then (n : Int) else (n : Int) - 2 ^ 32

/-- Big-endian four-byte unsigned read, the model of `get_u32`. -/
def toU32 (a b c d : UInt8) : Nat :=
  a.toNat * 2 ^ 24 + b.toNat * 2 ^ 16 + c.toNat * 2 ^ 8 + d.toNat

/-- `u32 as i32` (the cast applied to tagged-field keys). -/
def u32AsI32 (n : Nat) : Int :=
  if n < 2 ^ 31 then (n : Int) else (n : Int) - 2 ^ 32

/-- `i16 as usize` on a 64-bit target (sign extension then reinterpretation),
applied to string length prefixes in the source. -/
def i16AsUsize (i : Int) : Nat :=
  ((i % (2 ^ 64 : Int))).toNat

/-- Loop of the `integer_encoding` varint reader for `u32`
(`VarIntReader::read_varint`): reads one byte at a time, accumulating 7-bit
groups little-endian; at most 5 bytes may be pushed for a `u32`; EOF before
the terminating byte is an `UnexpectedEof` error; the accumulated value is
truncated with `as u32`. -/
def readUvarLoop : Buf → Nat → Nat → DRes Nat
  | [], _, _ => .err .eof []
  | b :: rest, i, acc =>
    if 5 ≤ i then .err (.invalidData "unterminated varint") rest
    else
      let acc2 := acc + (b.toNat % 128) * 128 ^ i
      if b.toNat < 128 then .ok (acc2 % 2 ^ 32) rest
      else readUvarLoop rest (i + 1) acc2

/-- `buf.reader().read_varint::<u32>()` from the source. -/
def readUvarint32 (buf : Buf) : DRes Nat :=
  readUvarLoop buf 0 0

/-- `write_varint` of the `integer_encoding` crate: LEB128, little-endian
7-bit groups with continuation bit. -/
def writeUvarint (n : Nat) : List UInt8 :=
  if h : n < 128 then [UInt8.ofNat n]
  else UInt8.ofNat (n % 128 + 128) :: writeUvarint (n / 128)
termination_by n
decreasing_by
  exact Nat.div_lt_self (by omega) (by omega)

/-- One byte of a UTF-8 continuation (`0x80 ..= 0xBF`). -/
def isCont (b : UInt8) : Bool := 128 ≤ b.toNat && b.toNat ≤ 191

/-- UTF-8 validity of a byte sequence, the model of
`String::from_utf8` succeeding (the checker of Rust std). -/
def utf8Valid : List UInt8 → Bool
  | [] => true
  | b :: rest =>
    if b.toNat ≤ 127 then utf8Valid rest
    else if 194 ≤ b.toNat && b.toNat ≤ 223 then
      match rest with
      | c1 :: r => isCont c1 && utf8Valid r
      | [] => false
    else if b.toNat == 224 then
      match rest with
      | c1 :: c2 :: r => (160 ≤ c1.toNat && c1.toNat ≤ 191) && isCont c2 && utf8Valid r
      | _ => false
    else if (225 ≤ b.toNat && b.toNat ≤ 236) || b.toNat == 238 || b.toNat == 239 then
      match rest with
      | c1 :: c2 :: r => isCont c1 && isCont c2 && utf8Valid r
      | _ => false
    else if b.toNat == 237 then
      match rest with
      | c1 :: c2 :: r => (128 ≤ c1.toNat && c1.toNat ≤ 159) && isCont c2 && utf8Valid r
      | _ => false
    else if b.toNat == 240 then
      match rest with
      | c1 :: c2 :: c3 :: r =>
        (144 ≤ c1.toNat && c1.toNat ≤ 191) && isCont c2 && isCont c3 && utf8Valid r
      | _ => false
    else if 241 ≤ b.toNat && b.toNat ≤ 243 then
      match rest with
      | c1 :: c2 :: c3 :: r => isCont c1 && isCont c2 && isCont c3 && utf8Valid r
      | _ => false
    else if b.toNat == 244 then
      match rest with
      | c1 :: c2 :: c3 :: r =>
        (128 ≤ c1.toNat && c1.toNat ≤ 143) && isCont c2 && isCont c3 && utf8Valid r
      | _ => false
    else false

/-- `impl Decoder for bool` (protocol/primitives.rs): the source calls
`buf.get_u8()` with no length guard, and `get_u8` of the bytes crate panics
on an empty buffer. -/
def boolDecode : Buf → DRes Bool
  | [] => .panicked "advance out of bounds"
  | b :: rest =>
    if b.toNat = 0 then .ok false rest
    else if b.toNat = 1 then .ok true rest
    else .err (.invalidData "invalid bool value") rest

/-- `impl Encoder for bool`. -/
def boolEncode (b : Bool) : Buf :=
  if b then [1] else [0]

/-- `impl Decoder for i16`: length guard then `get_i16`. -/
def i16Decode : Buf → DRes Int
  | hi :: lo :: rest => .ok (toI16 hi lo) rest
  | buf => .err (.invalidData "not enough data") buf

/-- `impl Decoder for Uuid`: length guard then 16 raw bytes. -/
def uuidDecode (buf : Buf) : DRes (List UInt8) :=
  if buf.length < 16 then .err (.invalidData "not enough data") buf
  else .ok (buf.take 16) (buf.drop 16)

/-- `Uuid::nil()`. -/
def uuidNil : List UInt8 := List.replicate 16 0

/-- `impl Decoder for String`: guard `len < 4`, read an `i16` length, guard
the payload, split it off and validate UTF-8. -/
def stringDecode (buf : Buf) : DRes Str :=
  if buf.length < 4 then .err (.invalidData "not enough data for string length") buf
  else
    match i16Decode buf with
    | .ok len rest =>
      let n := i16AsUsize len
      if rest.length < n then .err (.invalidData "not enough bytes for string data") rest
      else if utf8Valid (rest.take n) then .ok (rest.take n) (rest.drop n)
      else .err (.invalidData "invalid utf-8") (rest.drop n)
    | .err e b => .err e b
    | .panicked m => .panicked m

/-- `impl Decoder for NullableString`: an `i16` length where `-1` yields the
empty string (null is materialized as the empty string in this source). -/
def nullableStringDecode (buf : Buf) : DRes Str :=
  if buf.length < 2 then .err (.invalidData "not enough data for nullable string length") buf
  else
    match buf with
    | hi :: lo :: rest =>
      let len := toI16 hi lo
      if len = -1 then .ok [] rest
      else
        let n := i16AsUsize len
        if rest.length < n then .err (.invalidData "not enough data for nullable string data") rest
        else if utf8Valid (rest.take n) then .ok (rest.take n) (rest.drop n)
        else .err (.invalidData "invalid utf-8") (rest.drop n)
    | _ => .panicked "unreachable"

/-- `impl Decoder for CompactString`: varint length `n`, `n = 0` is a
protocol error, otherwise `n - 1` payload bytes. -/
def compactStringDecode (buf : Buf) : DRes Str :=
  match readUvarint32 buf with
  | .ok length rest =>
    if length = 0 then .err (.invalidData "zero-length compact string") rest
    else
      let n := length - 1
      if rest.length < n then .err (.invalidData "not enough bytes for compact string data") rest
      else if utf8Valid (rest.take n) then .ok (rest.take n) (rest.drop n)
      else .err (.invalidData "invalid utf-8") (rest.drop n)
  | .err e b => .err e b
  | .panicked m => .panicked m

/-- `impl Encoder for CompactString`: `write_varint(bytes.len() as u32 + 1)`
then the raw bytes; the length is truncated by the `as u32` cast. -/
def compactStringEncode (s : Str) : Buf :=
  writeUvarint ((s.length % 2 ^ 32 + 1) % 2 ^ 32) ++ s

/-- `impl Decoder for CompactNullableString`: varint length `n`, `n = 0`
yields the empty string (null conflated with empty), else `n - 1` bytes. -/
def compactNullableStringDecode (buf : Buf) : DRes Str :=
  match readUvarint32 buf with
  | .ok length rest =>
    if length = 0 then .ok [] rest
    else
      let n := length - 1
      if rest.length < n then .err (.invalidData "not enough bytes for string data") rest
      else if utf8Valid (rest.take n) then .ok (rest.take n) (rest.drop n)
      else .err (.invalidData "invalid utf-8") (rest.drop n)
  | .err e b => .err e b
  | .panicked m => .panicked m

/-- `impl Encoder for CompactNullableString`: the empty string is emitted as
the null marker `write_varint(0)`, otherwise like a compact string. -/
def compactNullableStringEncode (s : Str) : Buf :=
  if s.length = 0 then [0]
  else writeUvarint ((s.length % 2 ^ 32 + 1) % 2 ^ 32) ++ s

/-- Decode `n` consecutive elements with the element decoder `dec`. -/
def decodeN (dec : Buf → DRes α) : Nat → Buf → DRes (List α)
  | 0, buf => .ok [] buf
  | n + 1, buf =>
    match dec buf with
    | .ok a rest =>
      match decodeN dec n rest with
      | .ok as rest2 => .ok (a :: as) rest2
      | .err e b => .err e b
      | .panicked m => .panicked m
    | .err e b => .err e b
    | .panicked m => .panicked m

/-- `impl Decoder for Vec<T>` (and its versioned twin): guard 4 bytes, read
a `u32` length, then that many elements. -/
def vecDecode (dec : Buf → DRes α) : Buf → DRes (List α)
  | a :: b :: c :: d :: rest => decodeN dec (toU32 a b c d) rest
  | buf => .err (.invalidData "not enough data for array length") buf

/-- `impl Decoder for CompactArray<T>`: varint length `n`, `n = 0` is an
error, else `n - 1` elements. -/
def compactArrayDecode (dec : Buf → DRes α) (buf : Buf) : DRes (List α) :=
  match readUvarint32 buf with
  | .ok length rest =>
    if length = 0 then .err (.invalidData "compact array length is 0") rest
    else decodeN dec (length - 1) rest
  | .err e b => .err e b
  | .panicked m => .panicked m

/-- `BytesMut::split_to(n)` of the bytes crate: panics when `n` exceeds the
remaining length. -/
def splitTo (n : Nat) (buf : Buf) : DRes Buf :=
  if buf.length < n then .panicked "split_to out of bounds"
  else .ok (buf.take n) (buf.drop n)

/-- `BTreeMap::insert` on an association list kept sorted by key: replaces
the value when the key is present. -/
def btreeInsert (k : Int) (v : Buf) : List (Int × Buf) → List (Int × Buf)
  | [] => [(k, v)]
  | (k2, v2) :: rest =>
    if k < k2 then (k, v) :: (k2, v2) :: rest
    else if k = k2 then (k, v) :: rest
    else (k2, v2) :: btreeInsert k v rest

/-- Loop of the tagged-fields decoder: `count` iterations, each reading a
varint tag, a varint size, and `split_to(size)` (which panics when the
declared size exceeds the remaining buffer); entries are inserted into the
map with no ordering or uniqueness check. -/
def decodeTags : Nat → List (Int × Buf) → Buf → DRes (List (Int × Buf))
  | 0, acc, buf => .ok acc buf
  | n + 1, acc, buf =>
    match readUvarint32 buf with
    | .ok tag r1 =>
      match readUvarint32 r1 with
      | .ok size r2 =>
        match splitTo size r2 with
        | .ok v r3 => decodeTags n (btreeInsert (u32AsI32 tag) v acc) r3
        | .err e b => .err e b
        | .panicked m => .panicked m
      | .err e b => .err e b
      | .panicked m => .panicked m
    | .err e b => .err e b
    | .panicked m => .panicked m

/-- `impl Decoder for BTreeMap<i32, Bytes>` (the tagged-fields block). -/
def taggedFieldsDecode (buf : Buf) : DRes (List (Int × Buf)) :=
  match readUvarint32 buf with
  | .ok count rest => decodeTags count [] rest
  | .err e b => .err e b
  | .panicked m => .panicked m

/-- Result of an encoder that can panic (`Result<(), io::Error>` plus Rust
panics; the successful case carries the bytes written). -/
inductive ERes where
  | ok : Buf → ERes
  | panicked : String → ERes
deriving DecidableEq, Repr

/-- `impl Encoder for BTreeMap<i32, Bytes>`: panics on any non-empty map
(`panic!("cannot send non-empty tagged fields")`), otherwise writes the
single byte `0x00`. -/
def taggedFieldsEncode (m : List (Int × Buf)) : ERes :=
  if m.isEmpty then .ok [0]
  else .panicked "cannot send non-empty tagged fields"

/-- `ApiVersionsRequest::header_version` (messages/api_versions.rs). -/
def apiVersionsHeaderVersion (version : Int) : Int :=
  if version < 3 then 1 else 2

/-- `MetadataRequest::header_version` (messages/metadata.rs). -/
def metadataHeaderVersion (version : Int) : Int :=
  if version < 9 then 1 else 2

/-- `FindCoordinatorRequest::header_version` (messages/find_coordinator.rs). -/
def findCoordinatorHeaderVersion (version : Int) : Int :=
  if version > 2 then 2 else 1

/-- `VersionRange` (main.rs). -/
structure VersionRange where
  min : Int
  max : Int
deriving DecidableEq, Repr

/-- `VersionRange::contains`. -/
def VersionRange.containsV (r : VersionRange) (version : Int) : Bool :=
  r.min ≤ version && version ≤ r.max

/-- `ApiVersionsRequest::VERSIONS`. -/
def apiVersionsVERSIONS : VersionRange := ⟨0, 4⟩

/-- `MetadataRequest::VERSIONS`. -/
def metadataVERSIONS : VersionRange := ⟨0, 13⟩

/-- `FindCoordinatorRequest::VERSIONS`. -/
def findCoordinatorVERSIONS : VersionRange := ⟨0, 6⟩

/-- `ApiVersionsRequest` (messages/api_versions.rs). -/
structure ApiVersionsRequest where
  client_software_name : Str
  client_software_version : Str
  tagged_fields : List (Int × Buf)
deriving DecidableEq, Repr

/-- `ApiVersionsRequest::decode`: no version-range check; at `v ≥ 3` two
compact strings and a tagged block, at `v < 3` an empty body. -/
def apiVersionsRequestDecode (version : Int) (buf : Buf) : DRes ApiVersionsRequest :=
  match (if version < 3 then .ok [] buf else compactStringDecode buf : DRes Str) with
  | .ok name r1 =>
    match (if version < 3 then .ok [] r1 else compactStringDecode r1 : DRes Str) with
    | .ok ver r2 =>
      match (if version > 2 then taggedFieldsDecode r2
             else .ok [] r2 : DRes (List (Int × Buf))) with
      | .ok tf r3 => .ok ⟨name, ver, tf⟩ r3
      | .err e b => .err e b
      | .panicked m => .panicked m
    | .err e b => .err e b
    | .panicked m => .panicked m
  | .err e b => .err e b
  | .panicked m => .panicked m

/-- `MetadataRequestTopic` (messages/metadata.rs). -/
structure MetadataRequestTopic where
  topic_id : List UInt8
  name : Str
  tagged_fields : List (Int × Buf)
deriving DecidableEq, Repr

/-- The `topic_id` field read of `MetadataRequestTopic::decode`: a uuid only
when `version > 9`, otherwise the nil uuid with nothing consumed. -/
def decodeTopicId (version : Int) (buf : Buf) : DRes (List UInt8) :=
  if version > 9 then uuidDecode buf else .ok uuidNil buf

/-- The `name` field read of `MetadataRequestTopic::decode`: legacy string
below v9, compact string at v9, compact nullable string from v10 on. -/
def decodeTopicName (version : Int) (buf : Buf) : DRes Str :=
  if version < 9 then stringDecode buf
  else if version < 10 then compactStringDecode buf
  else compactNullableStringDecode buf

/-- The trailing tagged-fields read shared by `MetadataRequest::decode` and
`MetadataRequestTopic::decode`: only when `version > 8`. -/
def decodeMetadataTagged (version : Int) (buf : Buf) : DRes (List (Int × Buf)) :=
  if version > 8 then taggedFieldsDecode buf else .ok [] buf

/-- `MetadataRequestTopic::decode`. -/
def metadataRequestTopicDecode (version : Int) (buf : Buf) : DRes MetadataRequestTopic :=
  match decodeTopicId version buf with
  | .ok tid r1 =>
    match decodeTopicName version r1 with
    | .ok name r2 =>
      match decodeMetadataTagged version r2 with
      | .ok tf r3 => .ok ⟨tid, name, tf⟩ r3
      | .err e b => .err e b
      | .panicked m => .panicked m
    | .err e b => .err e b
    | .panicked m => .panicked m
  | .err e b => .err e b
  | .panicked m => .panicked m

/-- `MetadataRequest` (messages/metadata.rs). -/
structure MetadataRequest where
  topics : List MetadataRequestTopic
  allow_auto_topic_creation : Bool
  include_cluster_authorized_operations : Bool
  include_topic_authorized_operations : Bool
  tagged_fields : List (Int × Buf)
deriving DecidableEq, Repr

/-- The `topics` field read of `MetadataRequest::decode`: legacy array below
v9, compact array from v9 on. -/
def decodeMetadataTopics (version : Int) (buf : Buf) : DRes (List MetadataRequestTopic) :=
  if version < 9 then vecDecode (metadataRequestTopicDecode version) buf
  else compactArrayDecode (metadataRequestTopicDecode version) buf

/-- The `allow_auto_topic_creation` read: a bool only from v4 on, `false`
with nothing consumed below. -/
def decodeAllowAutoTopicCreation (version : Int) (buf : Buf) : DRes Bool :=
  if version < 4 then .ok false buf else boolDecode buf

/-- The `include_cluster_authorized_operations` read: a bool only for
`8 ≤ v < 11`, `false` with nothing consumed outside that window. -/
def decodeIncludeClusterAuthOps (version : Int) (buf : Buf) : DRes Bool :=
  if version < 8 then .ok false buf
  else if version < 11 then boolDecode buf
  else .ok false buf

/-- The `include_topic_authorized_operations` read: a bool only from v8 on. -/
def decodeIncludeTopicAuthOps (version : Int) (buf : Buf) : DRes Bool :=
  if version < 8 then .ok false buf else boolDecode buf

/-- `MetadataRequest::decode`: rejects a version outside `VERSIONS` before
reading anything, then reads each field under its version gate. -/
def metadataRequestDecode (version : Int) (buf : Buf) : DRes MetadataRequest :=
  if ¬ (metadataVERSIONS.containsV version) then .err (.invalidData "invalid version") buf
  else
    match decodeMetadataTopics version buf with
    | .ok topics r1 =>
      match decodeAllowAutoTopicCreation version r1 with
      | .ok auto r2 =>
        match decodeIncludeClusterAuthOps version r2 with
        | .ok cluster r3 =>
          match decodeIncludeTopicAuthOps version r3 with
          | .ok topic r4 =>
            match decodeMetadataTagged version r4 with
            | .ok tf r5 => .ok ⟨topics, auto, cluster, topic, tf⟩ r5
            | .err e b => .err e b
            | .panicked m => .panicked m
          | .err e b => .err e b
          | .panicked m => .panicked m
        | .err e b => .err e b
        | .panicked m => .panicked m
      | .err e b => .err e b
      | .panicked m => .panicked m
    | .err e b => .err e b
    | .panicked m => .panicked m

/-- One entry of the `ApiVersions` response (`ApiVersionsApiKeys`). -/
structure ApiVersionsApiKeys where
  api_key : Int
  min_version : Int
  max_version : Int
  tagged_fields : List (Int × Buf)
deriving DecidableEq, Repr

/-- `ApiVersionsResponse`. -/
structure ApiVersionsResponse where
  error_code : Int
  api_keys : List ApiVersionsApiKeys
  throttle_time_ms : Int
  tagged_fields : List (Int × Buf)
deriving DecidableEq, Repr

/-- `MetadataResponseBrokers`. -/
structure MetadataResponseBrokers where
  node_id : Int
  host : Str
  port : Int
  rack : Str
  tagged_fields : List (Int × Buf)
deriving DecidableEq, Repr

/-- `MetadataResponseTopicPartition`. -/
structure MetadataResponseTopicPartition where
  error_code : Int
  partition_index : Int
  leader_id : Int
  leader_epoch : Int
  replica_nodes : List Int
  isr_nodes : List Int
  offline_replicas : List Int
  tagged_fields : List (Int × Buf)
deriving DecidableEq, Repr

/-- `MetadataResponseTopic`. -/
structure MetadataResponseTopic where
  error_code : Int
  name : Str
  topic_id : List UInt8
  is_internal : Bool
  partitions : List MetadataResponseTopicPartition
  topic_authorized_operations : Int
  tagged_fields : List (Int × Buf)
deriving DecidableEq, Repr

/-- `MetadataResponse`. -/
structure MetadataResponse where
  throttle_time_ms : Int
  brokers : List MetadataResponseBrokers
  cluster_id : Str
  controller_id : Int
  topics : List MetadataResponseTopic
  tagged_fields : List (Int × Buf)
deriving DecidableEq, Repr

/-- The metadata of the registry the server builds in `KafkaServer::build`:
`register(3, Metadata)`, `register(10, FindCoordinator)`,
`register(18, ApiVersions)`; a `BTreeMap`, so enumeration is by ascending
key. Each entry carries the `VERSIONS` constant of its request type. -/
def mainRegistryMeta : List (Int × VersionRange) :=
  [(3, metadataVERSIONS), (10, findCoordinatorVERSIONS), (18, apiVersionsVERSIONS)]

/-- `MessageRegistry::versions`: `BTreeMap::get` on the handler map, mapped
to the `VERSIONS` of the registered request type. -/
def registryVersions (api_key : Int) : Option VersionRange :=
  (mainRegistryMeta.find? (fun p => p.1 == api_key)).map (fun p => p.2)

/-- `MessageRegistry::header_version`: dispatches to the registered request
type of the key. -/
def registryHeaderVersion (api_key version : Int) : Option Int :=
  if api_key = 3 then some (metadataHeaderVersion version)
  else if api_key = 10 then some (findCoordinatorHeaderVersion version)
  else if api_key = 18 then some (apiVersionsHeaderVersion version)
  else none

/-- `ApiVersionsHandler::new`: one response entry per registered key, in
registry enumeration order, with that schema version range and an empty
tagged block. -/
def apiVersionsHandlerNew (registry : List (Int × VersionRange)) : List ApiVersionsApiKeys :=
  registry.map (fun p => ⟨p.1, p.2.min, p.2.max, []⟩)

/-- `ApiVersionsHandler::handle`: `error_code = 0`, the precomputed key
list, zero throttle, empty tagged block. -/
def apiVersionsHandlerHandle (api_versions : List ApiVersionsApiKeys) : ApiVersionsResponse :=
  ⟨0, api_versions, 0, []⟩

/-- `MetadataRequestHandler::handle`: the stub topology response. -/
def metadataHandlerHandle (_request : MetadataRequest) : MetadataResponse :=
  ⟨0, [], [], 0, [], []⟩

/-- `RequestHeader` (main.rs). -/
structure RequestHeader where
  api_key : Int
  version : Int
  correlation_id : Int
  client_id : Str
  tagged_fields : List (Int × Buf)
deriving DecidableEq, Repr

/-- `RequestHeader::decode` (main.rs): guard 8 bytes; read key, version and
correlation id; `registry.versions(api_key)?` checks only that the key is
registered (its range is discarded); read the nullable client id; read a
tagged block when the header version selected by the registry exceeds 1. -/
def requestHeaderDecode (buf : Buf) : DRes RequestHeader :=
  if buf.length < 8 then .err (.invalidData "not enough data for v1 kafka header") buf
  else
    match buf with
    | a :: b :: c :: d :: e :: f :: g :: h :: rest =>
      let api_key := toI16 a b
      let version := toI16 c d
      let correlation_id := toI32 e f g h
      match registryVersions api_key with
      | none => .err (.other "unsupported api key") rest
      | some _ =>
        match nullableStringDecode rest with
        | .ok client_id r2 =>
          match registryHeaderVersion api_key version with
          | none => .err (.other "unsupported api key") r2
          | some hv =>
            if hv > 1 then
              match taggedFieldsDecode r2 with
              | .ok tf r3 => .ok ⟨api_key, version, correlation_id, client_id, tf⟩ r3
              | .err e2 b2 => .err e2 b2
              | .panicked m => .panicked m
            else .ok ⟨api_key, version, correlation_id, client_id, []⟩ r2
        | .err e2 b2 => .err e2 b2
        | .panicked m => .panicked m
    | _ => .panicked "unreachable"

/-- The type-erased response a handler returns (`Box<dyn AnyResponse>`). -/
inductive AnyResp where
  | apiVersions : ApiVersionsResponse → AnyResp
  | metadata : MetadataResponse → AnyResp
  | findCoordinator : AnyResp
deriving DecidableEq, Repr

/-- `MessageRegistry::handle_request` composed with
`TypedRequestHandler::handle` for the registry built in
`KafkaServer::build`: look the handler up by key, decode the body at the
header version, run the handler. `FindCoordinatorRequest::decode` is
`todo!()`, a panic. -/
def handleRequest (buf : Buf) (header : RequestHeader) : DRes AnyResp :=
  if header.api_key = 3 then
    match metadataRequestDecode header.version buf with
    | .ok req rest => .ok (.metadata (metadataHandlerHandle req)) rest
    | .err e b => .err e b
    | .panicked m => .panicked m
  else if header.api_key = 10 then .panicked "not yet implemented"
  else if header.api_key = 18 then
    match apiVersionsRequestDecode header.version buf with
    | .ok _req rest =>
      .ok (.apiVersions (apiVersionsHandlerHandle (apiVersionsHandlerNew mainRegistryMeta))) rest
    | .err e b => .err e b
    | .panicked m => .panicked m
  else .err (.other "Unsupported api key") buf

/-- `KafkaRequest::decode_and_handle`: header decode then dispatch. -/
def decodeAndHandle (buf : Buf) : DRes AnyResp :=
  match requestHeaderDecode buf with
  | .ok header rest => handleRequest rest header
  | .err e b => .err e b
  | .panicked m => .panicked m

/-- Wire encoding of one tagged-field entry: varint tag, varint size,
payload bytes, as laid out by the source protocol. -/
def encodeTagEntry (e : Nat × Buf) : Buf :=
  writeUvarint e.1 ++ writeUvarint e.2.length ++ e.2

/-- Wire encoding of a whole tagged-fields block: varint entry count then
the entries in wire order. -/
def encodeTagBlock (es : List (Nat × Buf)) : Buf :=
  writeUvarint es.length ++ es.foldr (fun e a => encodeTagEntry e ++ a) []

theorem writeUvarint_small {n : Nat} (h : n < 128) : writeUvarint n = [UInt8.ofNat n] := by
  rw [writeUvarint]
  simp [h]

theorem writeUvarint_large {n : Nat} (h : 128 ≤ n) :
    writeUvarint n = UInt8.ofNat (n % 128 + 128) :: writeUvarint (n / 128) := by
  rw [writeUvarint]
  simp [Nat.not_lt.mpr h]

theorem readUvar_round (n : Nat) : ∀ (i acc : Nat) (tail : Buf), i ≤ 4 → n < 128 ^ (5 - i) →
    readUvarLoop (writeUvarint n ++ tail) i acc = .ok ((acc + n * 128 ^ i) % 2 ^ 32) tail := by
  induction n using Nat.strong_induction_on with
  | _ n ih =>
    intro i acc tail hi hn
    by_cases hsmall : n < 128
    · rw [writeUvarint_small hsmall]
      show readUvarLoop (UInt8.ofNat n :: tail) i acc = _
      unfold readUvarLoop
      rw [if_neg (by omega)]
      have hb : (UInt8.ofNat n).toNat = n := by
        show n % 256 = n
        omega
      rw [hb]
      rw [if_pos hsmall, Nat.mod_eq_of_lt hsmall]
    · rw [writeUvarint_large (Nat.le_of_not_lt hsmall)]
      show readUvarLoop (UInt8.ofNat (n % 128 + 128) :: (writeUvarint (n / 128) ++ tail)) i acc = _
      have hi3 : i ≤ 3 := by
        rcases Nat.lt_or_ge i 4 with h | h
        · omega
        · exfalso
          have : i = 4 := by omega
          subst this
          simp only [show (5 : Nat) - 4 = 1 by rfl, pow_one] at hn
          omega
      unfold readUvarLoop
      rw [if_neg (by omega)]
      have hb : (UInt8.ofNat (n % 128 + 128)).toNat = n % 128 + 128 := by
        show (n % 128 + 128) % 256 = n % 128 + 128
        omega
      rw [hb]
      rw [if_neg (by omega)]
      have hmod : (n % 128 + 128) % 128 = n % 128 := by omega
      rw [hmod]
      have hdiv : n / 128 < 128 ^ (5 - (i + 1)) := by
        have h1 : 5 - i = (5 - (i + 1)) + 1 := by omega
        rw [h1, pow_succ, mul_comm] at hn
        exact Nat.div_lt_of_lt_mul hn
      rw [ih (n / 128) (Nat.div_lt_self (by omega) (by omega)) (i + 1)
        (acc + n % 128 * 128 ^ i) tail (by omega) hdiv]
      congr 2
      conv_rhs => rw [← Nat.mod_add_div n 128]
      ring

theorem readUvarint32_round (n : Nat) (h : n < 2 ^ 32) (tail : Buf) :
    readUvarint32 (writeUvarint n ++ tail) = .ok n tail := by
  unfold readUvarint32
  rw [readUvar_round n 0 0 tail (by omega) (by norm_num; omega)]
  simp only [pow_zero, mul_one, Nat.zero_add, Nat.mod_eq_of_lt h]

theorem decodeTags_round (es : List (Nat × Buf)) :
    ∀ (acc : List (Int × Buf)) (tail : Buf),
    (∀ e ∈ es, e.1 < 2 ^ 32 ∧ e.2.length < 2 ^ 32) →
    decodeTags es.length acc ((es.foldr (fun e a => encodeTagEntry e ++ a) []) ++ tail)
      = .ok (es.foldl (fun m e => btreeInsert (u32AsI32 e.1) e.2 m) acc) tail := by
  induction es with
  | nil => intro acc tail _; simp [decodeTags]
  | cons e es ih =>
    intro acc tail hb
    have he := hb e (List.mem_cons_self e es)
    have hsplit : splitTo e.2.length (e.2 ++ ((es.foldr (fun e a => encodeTagEntry e ++ a) []) ++ tail))
        = .ok e.2 ((es.foldr (fun e a => encodeTagEntry e ++ a) []) ++ tail) := by
      unfold splitTo
      rw [if_neg (by simp)]
      rw [List.take_left, List.drop_left]
    show decodeTags (es.length + 1) acc _ = _
    unfold decodeTags
    rw [List.foldr_cons, encodeTagEntry]
    simp only [List.append_assoc]
    simp only [readUvarint32_round e.1 he.1, readUvarint32_round e.2.length he.2, hsplit]
    rw [ih (btreeInsert (u32AsI32 e.1) e.2 acc) tail (fun x hx => hb x (List.mem_cons_of_mem e hx))]
    rfl

/-- C1: the server never produces the version-0 / error-35 `ApiVersions`
reply the claim describes. On a frame with `api_key = 18`,
`api_version = 99` (outside `[0, 4]`) and an empty body, header decoding
succeeds (no version-range check happens) and the body decode at version 99
fails with an EOF error that aborts the connection; and when such a request
carries a well-formed flexible body, the server answers it as if the
version were valid, with `error_code = 0`. -/
theorem claim1_no_error35_reply :
    decodeAndHandle [0x00, 0x12, 0x00, 0x63, 0x00, 0x00, 0x00, 0x07, 0xFF, 0xFF, 0x00]
      = .err .eof [] ∧
    decodeAndHandle [0x00, 0x12, 0x00, 0x63, 0x00, 0x00, 0x00, 0x07, 0xFF, 0xFF, 0x00,
        0x02, 0x61, 0x02, 0x62, 0x00]
      = .ok (.apiVersions ⟨0, [⟨3, 0, 13, []⟩, ⟨10, 0, 6, []⟩, ⟨18, 0, 4, []⟩], 0, []⟩) [] := by
  constructor <;> decide

/-- C2 counterexample: a request for `api_key = 18` whose header version 99
lies outside the registered range `[0, 4]` is not rejected: its body fields
are decoded at version 99 and all five body bytes are consumed, returning a
normal response. -/
theorem claim2_counterexample :
    handleRequest [0x02, 0x61, 0x02, 0x62, 0x00] ⟨18, 99, 7, [], []⟩
      = .ok (.apiVersions (apiVersionsHandlerHandle (apiVersionsHandlerNew mainRegistryMeta))) []
      := by decide

/-- C2 amended: only `MetadataRequest::decode` checks the version range; a
Metadata body at a version outside `[0, 13]` is rejected with an
invalid-version error before any field is read and with no byte consumed. -/
theorem claim2_metadata_rejects (v : Int) (buf : Buf) (h : v < 0 ∨ 13 < v) :
    metadataRequestDecode v buf = .err (.invalidData "invalid version") buf := by
  have hc : metadataVERSIONS.containsV v = false := by
    simp only [VersionRange.containsV, metadataVERSIONS]
    simp only [Bool.and_eq_false_iff, decide_eq_false_iff_not]
    omega
  simp [metadataRequestDecode, hc]

theorem claim2_metadata_rejects_witness :
    metadataRequestDecode 14 [0x01] = .err (.invalidData "invalid version") [0x01] :=
  claim2_metadata_rejects 14 [0x01] (Or.inr (by decide))

/-- C3: two primitive decoders are not total. The bool decoder calls
`get_u8` with no length guard and panics on an empty buffer, and the
tagged-fields decoder calls `split_to(size)` with no bounds check and
panics when the declared size (here 5) exceeds the remaining bytes (here
none); the `i16` decoder, by contrast, does return the insufficient-data
error the claim requires. -/
theorem claim3_panics :
    boolDecode [] = .panicked "advance out of bounds" ∧
    taggedFieldsDecode [0x01, 0x00, 0x05] = .panicked "split_to out of bounds" ∧
    i16Decode [] = .err (.invalidData "not enough data") [] := by
  refine ⟨by decide, by decide, by decide⟩

/-- C5 counterexample: a tagged-fields block whose two entries carry the
same tag key 1 is not rejected; it decodes successfully and the second
value silently overwrites the first. -/
theorem claim5_counterexample :
    taggedFieldsDecode [0x02, 0x01, 0x01, 0xAA, 0x01, 0x01, 0xBB]
      = .ok [(1, [0xBB])] [] := by decide

/-- C6: the tagged-fields encoder writes the single byte `0x00` for the
empty block but panics (`cannot send non-empty tagged fields`) on any
non-empty map instead of emitting its entries. -/
theorem claim6_encode_behaviour :
    taggedFieldsEncode [] = .ok [0x00] ∧
    taggedFieldsEncode [(0, [0x01])] = .panicked "cannot send non-empty tagged fields" := by
  refine ⟨by decide, by decide⟩

/-- C7: for each registered message type the header-version selector is a
non-decreasing step function of the api version, with the stated particular
values for ApiVersions (1 below 3, 2 from 3 on) and Metadata (1 below 9, 2
from 9 on). -/
theorem claim7_header_version_monotone (v w : Int) (h : v ≤ w) :
    (apiVersionsHeaderVersion v ≤ apiVersionsHeaderVersion w ∧
     metadataHeaderVersion v ≤ metadataHeaderVersion w ∧
     findCoordinatorHeaderVersion v ≤ findCoordinatorHeaderVersion w) ∧
    ((v < 3 → apiVersionsHeaderVersion v = 1) ∧ (3 ≤ v → apiVersionsHeaderVersion v = 2)) ∧
    ((v < 9 → metadataHeaderVersion v = 1) ∧ (9 ≤ v → metadataHeaderVersion v = 2)) := by
  simp only [apiVersionsHeaderVersion, metadataHeaderVersion, findCoordinatorHeaderVersion]
  split_ifs <;> omega

theorem claim7_header_version_monotone_witness :
    apiVersionsHeaderVersion 2 ≤ apiVersionsHeaderVersion 3 :=
  (claim7_header_version_monotone 2 3 (by decide)).1.1

/-- C9: each version-gated field of the Metadata request is read from the
buffer exactly in its declared window and takes its declared default with
no byte consumed outside it: the cluster-authorized-operations bool is read
only for `8 ≤ v < 11` and is `false` with nothing consumed otherwise; the
auto-topic-creation bool defaults to `false` below v4; the topic id is the
nil uuid with nothing consumed below v10; the topic-authorized-operations
bool defaults to `false` below v8; the tagged block is empty with nothing
consumed up to v8. -/
theorem claim9_fields (v : Int) (buf : Buf) :
    ((v < 8 ∨ 11 ≤ v) → decodeIncludeClusterAuthOps v buf = .ok false buf) ∧
    (8 ≤ v ∧ v < 11 → decodeIncludeClusterAuthOps v buf = boolDecode buf) ∧
    (v < 4 → decodeAllowAutoTopicCreation v buf = .ok false buf) ∧
    (4 ≤ v → decodeAllowAutoTopicCreation v buf = boolDecode buf) ∧
    (v ≤ 9 → decodeTopicId v buf = .ok uuidNil buf) ∧
    (v < 8 → decodeIncludeTopicAuthOps v buf = .ok false buf) ∧
    (v ≤ 8 → decodeMetadataTagged v buf = .ok [] buf) := by
  simp only [decodeIncludeClusterAuthOps, decodeAllowAutoTopicCreation, decodeTopicId,
    decodeIncludeTopicAuthOps, decodeMetadataTagged]
  split_ifs <;> refine ⟨?_, ?_, ?_, ?_, ?_, ?_, ?_⟩ <;> intro h <;>
    first | rfl | (exfalso; omega)

theorem claim9_fields_witness :
    decodeIncludeClusterAuthOps 12 [0x01] = .ok false [0x01] :=
  (claim9_fields 12 [0x01]).1 (Or.inr (by decide))

/-- C10: the nullable string codecs conflate null with the empty string:
a legacy nullable string with length prefix `-1` decodes to the empty
string, the compact nullable byte `0x00` decodes to the empty string, the
empty string compact-nullable-encodes to exactly `0x00`, and the round trip
of the empty (non-null) string therefore goes through the null marker. -/
theorem claim10_null_empty_conflation :
    nullableStringDecode [0xFF, 0xFF] = .ok [] [] ∧
    compactNullableStringDecode [0x00] = .ok [] [] ∧
    compactNullableStringEncode [] = [0x00] ∧
    compactNullableStringDecode (compactNullableStringEncode []) = .ok [] [] := by
  refine ⟨by decide, by decide, by decide, by decide⟩

/-- C4 counterexample: for the string of `2 ^ 32 - 1` bytes `a`, the `as
u32` cast in the encoder wraps `len + 1` to `0`, so the encoding begins
with the null marker `0x00` instead of `uvarint(len + 1)` and decoding it
does not give the string back. -/
theorem claim4_counterexample :
    compactStringDecode (compactStringEncode (List.replicate (2 ^ 32 - 1) (0x61 : UInt8)))
      ≠ .ok (List.replicate (2 ^ 32 - 1) (0x61 : UInt8)) [] := by
  have henc : compactStringEncode (List.replicate (2 ^ 32 - 1) (0x61 : UInt8))
      = (0 : UInt8) :: List.replicate (2 ^ 32 - 1) (0x61 : UInt8) := by
    rw [compactStringEncode, List.length_replicate]
    norm_num
    rw [writeUvarint_small (by norm_num)]
    rfl
  rw [henc]
  unfold compactStringDecode readUvarint32
  unfold readUvarLoop
  norm_num
  exact fun hcon => DRes.noConfusion hcon

/-- C4 amended: for every string whose length satisfies
`len + 1 < 2 ^ 32`, the compact-string encoding is exactly
`uvarint(len + 1)` followed by the UTF-8 bytes, decoding that encoding
yields the string back with the whole buffer consumed, and the compact
nullable encoding of null (the empty string in this source) is the single
byte `0x00`. -/
theorem claim4_roundtrip (s : Str) (hu : utf8Valid s = true) (hl : s.length + 1 < 2 ^ 32) :
    compactStringEncode s = writeUvarint (s.length + 1) ++ s ∧
    compactStringDecode (compactStringEncode s) = .ok s [] ∧
    compactNullableStringEncode [] = [0x00] := by
  have hmod : (s.length % 2 ^ 32 + 1) % 2 ^ 32 = s.length + 1 := by omega
  have henc : compactStringEncode s = writeUvarint (s.length + 1) ++ s := by
    rw [compactStringEncode, hmod]
  refine ⟨henc, ?_, by decide⟩
  rw [henc]
  unfold compactStringDecode
  rw [readUvarint32_round (s.length + 1) hl s]
  simp [hu]

theorem claim4_roundtrip_witness :
    compactStringEncode [0x61] = writeUvarint 2 ++ [0x61] ∧
    compactStringDecode (compactStringEncode [0x61]) = .ok [0x61] [] ∧
    compactNullableStringEncode [] = [0x00] :=
  claim4_roundtrip [0x61] (by decide) (by norm_num)

/-- C5 amended: the tagged-fields decoder performs no ordering or
uniqueness check: every block of well-formed `(tag, size, bytes)` triples
decodes successfully into the map obtained by inserting the entries in wire
order, so a duplicate tag is overwritten by the later entry rather than
rejected. -/
theorem claim5_insert_semantics (es : List (Nat × Buf))
    (hb : ∀ e ∈ es, e.1 < 2 ^ 32 ∧ e.2.length < 2 ^ 32) (hn : es.length < 2 ^ 32) :
    taggedFieldsDecode (encodeTagBlock es)
      = .ok (es.foldl (fun m e => btreeInsert (u32AsI32 e.1) e.2 m) []) [] := by
  unfold taggedFieldsDecode encodeTagBlock
  rw [readUvarint32_round es.length hn _]
  have h2 := decodeTags_round es [] [] hb
  rw [List.append_nil] at h2
  exact h2

theorem claim5_insert_semantics_witness :
    taggedFieldsDecode (encodeTagBlock [(1, [0xAA]), (1, [0xBB])]) = .ok [(1, [0xBB])] [] := by
  rw [claim5_insert_semantics [(1, [0xAA]), (1, [0xBB])] (by decide) (by decide)]
  decide

/-- C8: the `ApiVersions` response built from a registry carries
`error_code = 0` and its `api_keys` list is exactly one entry per
registered key, in registry order, carrying that schema declared
`VERSIONS` range. -/
theorem claim8_dispatch (registry : List (Int × VersionRange))
    (hnd : (registry.map Prod.fst).Nodup) :
    (apiVersionsHandlerHandle (apiVersionsHandlerNew registry)).error_code = 0 ∧
    (apiVersionsHandlerHandle (apiVersionsHandlerNew registry)).api_keys
      = registry.map (fun p => ⟨p.1, p.2.min, p.2.max, []⟩) ∧
    ∀ k r, (k, r) ∈ registry →
      (⟨k, r.min, r.max, []⟩ : ApiVersionsApiKeys)
          ∈ (apiVersionsHandlerHandle (apiVersionsHandlerNew registry)).api_keys ∧
      ((apiVersionsHandlerHandle (apiVersionsHandlerNew registry)).api_keys.countP
          (fun e => e.api_key == k)) = 1 := by
  refine ⟨rfl, rfl, fun k r hmem => ⟨?_, ?_⟩⟩
  · exact List.mem_map_of_mem _ hmem
  · have h1 : (apiVersionsHandlerHandle (apiVersionsHandlerNew registry)).api_keys.countP
        (fun e => e.api_key == k)
        = (registry.map Prod.fst).count k := by
      show (registry.map _).countP _ = _
      rw [List.countP_map, List.count, List.countP_map]
      rfl
    rw [h1]
    exact List.count_eq_one_of_mem hnd (List.mem_map_of_mem Prod.fst hmem)

theorem claim8_dispatch_witness :
    (apiVersionsHandlerHandle (apiVersionsHandlerNew mainRegistryMeta)).error_code = 0 ∧
    (apiVersionsHandlerHandle (apiVersionsHandlerNew mainRegistryMeta)).api_keys
      = [⟨3, 0, 13, []⟩, ⟨10, 0, 6, []⟩, ⟨18, 0, 4, []⟩] :=
  ⟨(claim8_dispatch mainRegistryMeta (by decide)).1,
    ((claim8_dispatch mainRegistryMeta (by decide)).2.1).trans (by decide)⟩
